import Mathlib

/-!
# Verification of the OnTap spec-to-command compiler

A shallow embedding, in Lean 4, of the parts of the OnTap code base
(FynxLabs/ontap, Go) that the specification's claims are about:

* the Go string primitives the code uses (`strings.ReplaceAll`,
  `strings.SplitN`, `strings.Contains`, ...), re-implemented on `List Char`;
* the flag-derivation logic of `internal/pkg/utils/flags.go`
  (`AddParameterFlags`, `addQueryParameterFlag`, ...);
* the request construction and path-parameter binding of
  `cmd/dynamic.go` (`executeEndpoint`, `getCommandUse`);
* the HTTP client of `internal/pkg/http/client.go`
  (`Client.Execute`, `Client.addAuth`, body resolution, dry-run);
* the response field extraction of `internal/pkg/output`
  (`ExtractFields`, `extractField`);
* the cache key derivations of `cmd/dynamic.go` (`generateCacheKey`)
  and `internal/pkg/cache` (`LibOpenAPICacheManager.generateCacheKey`,
  the store's `Get`/`Set`).

Go's dynamically typed `interface\x7b\x7d` values (JSON-decoded data,
schema defaults) are modelled by the inductive type `GoVal`; Go `nil`
maps and `nil` interface values are modelled with `Option`.  External
collaborators that the code calls but that are not part of the
repository (the `net/url` resolver, the file system, the HTTP
transport, `crypto/sha256`) are passed in as explicit function
parameters, so the theorems quantify over them.
-/

set_option autoImplicit false

namespace OnTap

/-! ## Go string primitives

The Go standard library functions used by the code, re-implemented on
`List Char` (Go operates on bytes; all inputs relevant to the claims
are ASCII, where the byte-level and char-level views agree). -/

/-- Go `strings.HasPrefix`: using `List.isPrefixOf` on the char lists. -/
def goHasPrefix (s pre : String) : Bool :=
  pre.data.isPrefixOf s.data

/-- Go `strings.TrimPrefix(s, pre)`: drop `pre` from the front of `s` when it
is literally there, otherwise return `s` unchanged. -/
def goTrimPrefix (s pre : String) : String :=
  if pre.data.isPrefixOf s.data then ⟨s.data.drop pre.data.length⟩ else s

/-- Go `strings.ToLower` (ASCII range, which covers the HTTP method names
it is applied to). -/
def goToLower (s : String) : String :=
  ⟨s.data.map Char.toLower⟩

/-- Helper for `strings.ReplaceAll` with a non-empty pattern
`o :: os`: scan left to right, replacing each (non-overlapping)
occurrence of the pattern by `new`.  The first argument is fuel, set to
the scanned list's length by the wrapper (each step consumes at least
one character, so the fuel never runs out; it only makes the recursion
structural). -/
def goReplaceAllAux (o : Char) (os new : List Char) : Nat → List Char → List Char
  | 0, l => l
  | _ + 1, [] => []
  | fuel + 1, c :: rest =>
    if (o :: os).isPrefixOf (c :: rest) then
      new ++ goReplaceAllAux o os new fuel (rest.drop os.length)
    else
      c :: goReplaceAllAux o os new fuel rest

/-- Go `strings.ReplaceAll(s, old, new)`.  For an empty `old` Go inserts
`new` before every character and at the end; the code only ever calls
it with non-empty patterns (`"/"` and `"\x7bname\x7d"`). -/
def goReplaceAll (s old new : String) : String :=
  match old.data with
  | [] => ⟨new.data ++ s.data.foldr (fun c acc => c :: new.data ++ acc) []⟩
  | o :: os => ⟨goReplaceAllAux o os new.data s.data.length s.data⟩

/-- Go `strings.Contains(s, sub)`. -/
def goContainsAux (sub : List Char) : List Char → Bool
  | [] => sub.isEmpty
  | c :: rest => sub.isPrefixOf (c :: rest) || goContainsAux sub rest

/-- Go `strings.Contains(s, sub)`. -/
def goContains (s sub : String) : Bool :=
  goContainsAux sub.data s.data

/-- Go `strings.SplitN(s, sep, 2)` for a single-character separator:
`some (before, after)` when `sep` occurs (split at the first
occurrence), `none` when it does not (Go then returns `[s]`). -/
def goSplitN2Char (sep : Char) : List Char → Option (List Char × List Char)
  | [] => none
  | c :: rest =>
    if c = sep then some ([], rest)
    else (goSplitN2Char sep rest).map (fun p => (c :: p.1, p.2))

/-- Go `strings.Split(s, sep)` for a single-character separator: all parts,
empty parts kept (Go semantics for a non-empty separator). -/
def goSplitChar (sep : Char) : List Char → List (List Char)
  | [] => [[]]
  | c :: rest =>
    if c = sep then [] :: goSplitChar sep rest
    else
      match goSplitChar sep rest with
      | [] => [[c]]
      | h :: t => (c :: h) :: t

/-- Go `unicode.IsSpace` restricted to the ASCII whitespace characters
(`strings.TrimSpace` is only applied to header names/values here). -/
def goIsSpace (c : Char) : Bool :=
  c = ' ' || c = '\t' || c = '\n' || c = '\r' || c = '\x0b' || c = '\x0c'

/-- Go `strings.TrimSpace`. -/
def goTrimSpace (s : String) : String :=
  ⟨((s.data.dropWhile goIsSpace).reverse.dropWhile goIsSpace).reverse⟩

end OnTap

namespace OnTap

/-! ## Dynamically typed Go values

Go `interface\x7b\x7d` values as they arise in this code base: JSON/YAML
decoded data and schema defaults.  JSON numbers decode to Go `float64`
(`vFloat`, modelled as the rational the float denotes); a Go `int`
carries a distinct dynamic type (`vInt`), which matters because the
code uses `float64` type assertions on defaults. -/
inductive GoVal where
  | vNull
  | vBool (b : Bool)
  | vFloat (q : Rat)
  | vInt (n : Int)
  | vStr (s : String)
  | vList (xs : List GoVal)
  | vObj (fields : List (String × GoVal))

/-- Go `int(f)` for a `float64` `f`: truncation toward zero. -/
def truncFloat (q : Rat) : Int :=
  q.num.tdiv (q.den : Int)

/-- Decimal digits of the fractional part of `q ∈ [0, 1)`, fuel-bounded
(a `float64` prints at most 17 significant digits). -/
def ratFracDigits : Nat → Rat → List Char
  | 0, _ => []
  | fuel + 1, q =>
    if q = 0 then []
    else
      let q10 := q * 10
      let d := q10.floor
      Char.ofNat (48 + d.toNat) :: ratFracDigits fuel (q10 - (d : Rat))

/-- Rendering of a `float64` under `fmt.Sprintf("%v", _)`: Go prints the
shortest decimal that round-trips, which for the rationals modelling
the value is its plain decimal expansion (`10` for `10.0`, `3.5` for
`3.5`). -/
def formatFloat (q : Rat) : String :=
  let sign := if q < 0 then "-" else ""
  let a := |q|
  let intPart := a.floor.toNat
  let frac := a - (a.floor : Rat)
  if frac = 0 then sign ++ toString intPart
  else sign ++ toString intPart ++ "." ++ (⟨ratFracDigits 17 frac⟩ : String)

mutual

/-- Go `fmt.Sprintf("%v", v)` for the dynamic values above (Go's default
formatting: strings verbatim, `true`/`false`, `<nil>` for nil, decimal
numbers, `[a b]` for slices, `map[k:v]` for maps). -/
def goFormatV : GoVal → String
  | .vNull => "<nil>"
  | .vBool true => "true"
  | .vBool false => "false"
  | .vFloat q => formatFloat q
  | .vInt n => toString n
  | .vStr s => s
  | .vList xs => "[" ++ " ".intercalate (goFormatVList xs) ++ "]"
  | .vObj fs => "map[" ++ " ".intercalate (goFormatVFields fs) ++ "]"

/-- The `%v` renderings of the elements of a slice. -/
def goFormatVList : List GoVal → List String
  | [] => []
  | v :: rest => goFormatV v :: goFormatVList rest

/-- The `k:v` renderings of the entries of a map. -/
def goFormatVFields : List (String × GoVal) → List String
  | [] => []
  | (k, v) :: rest => (k ++ ":" ++ goFormatV v) :: goFormatVFields rest

end

/-! ## Parameters and flags (`internal/pkg/utils/flags.go`) -/

/-- Model of `utils.ParameterSchema`: the translated schema attached to a
parameter (`Type` is a Lean keyword, hence `type_`).  A Go `nil`
`Default` is `none`. -/
structure ParameterSchema where
  type_ : String
  format : String := ""
  default : Option GoVal := none
  enum : List GoVal := []

/-- Model of `utils.Parameter`: one OpenAPI parameter as handed to the flag
builder.  A Go `nil` `Schema` pointer is `none`. -/
structure Parameter where
  name : String
  In : String
  description : String := ""
  required : Bool := false
  schema : Option ParameterSchema := none

/-- The kind of a registered pflag flag. -/
inductive FlagKind where
  | str
  | int
  | bool
  | strArray
deriving DecidableEq

/-- The default value stored with a registered flag. -/
inductive FlagDefault where
  | defStr (s : String)
  | defInt (n : Int)
  | defBool (b : Bool)
  | defStrArray (xs : List String)
deriving DecidableEq

/-- One registered flag of a command's flag set. -/
structure Flag where
  name : String
  kind : FlagKind
  default : FlagDefault
  description : String
  required : Bool := false
deriving DecidableEq

/-- A command's flag set, in registration order. -/
def FlagSet := List Flag
deriving DecidableEq

/-- Cobra `cmd.Flags().Lookup(name)`. -/
def lookupFlag (fs : FlagSet) (name : String) : Option Flag :=
  List.find? (fun f => f.name = name) fs

/-- Cobra `cmd.Flags().String(name, value, usage)`. -/
def addStringFlag (fs : FlagSet) (name value description : String) : FlagSet :=
  List.append fs [⟨name, .str, .defStr value, description, false⟩]

/-- Cobra `cmd.Flags().Int(name, value, usage)`. -/
def addIntFlag (fs : FlagSet) (name : String) (value : Int) (description : String) : FlagSet :=
  List.append fs [⟨name, .int, .defInt value, description, false⟩]

/-- Cobra `cmd.Flags().Bool(name, value, usage)`. -/
def addBoolFlag (fs : FlagSet) (name : String) (value : Bool) (description : String) : FlagSet :=
  List.append fs [⟨name, .bool, .defBool value, description, false⟩]

/-- Cobra `cmd.Flags().StringArray(name, value, usage)`. -/
def addStringArrayFlag (fs : FlagSet) (name : String) (value : List String)
    (description : String) : FlagSet :=
  List.append fs [⟨name, .strArray, .defStrArray value, description, false⟩]

/-- Cobra `cmd.MarkFlagRequired(name)`: mark the flag required; when the flag
does not exist cobra returns an error which the code only logs. -/
def markFlagRequired (fs : FlagSet) (name : String) : FlagSet :=
  fs.map (fun f => if f.name = name then { f with required := true } else f)

/-- Model of `utils.addQueryParameterFlag`: pick the flag kind and default from
the parameter's schema type (`flags.go:121-170`). -/
def addQueryParameterFlag (fs : FlagSet) (param : Parameter) : FlagSet :=
  match param.schema with
  | none => addStringFlag fs param.name "" param.description
  | some schema =>
    match schema.type_ with
    | "string" =>
      let defaultValue :=
        match schema.default with
        | none => ""
        | some d => goFormatV d
      addStringFlag fs param.name defaultValue param.description
    | "integer" | "number" =>
      let defaultValue : Int :=
        match schema.default with
        | some (.vFloat q) => truncFloat q
        | _ => 0
      addIntFlag fs param.name defaultValue param.description
    | "boolean" =>
      let defaultValue : Bool :=
        match schema.default with
        | some (.vBool b) => b
        | _ => false
      addBoolFlag fs param.name defaultValue param.description
    | "array" => addStringArrayFlag fs param.name [] param.description
    | _ => addStringFlag fs param.name "" param.description

/-- Model of `utils.addHeaderParameterFlag`: always a plain string flag with an
empty default (`flags.go:161-164`). -/
def addHeaderParameterFlag (fs : FlagSet) (param : Parameter) : FlagSet :=
  addStringFlag fs param.name "" param.description

/-- Model of `utils.addCookieParameterFlag`: always a plain string flag with an
empty default (`flags.go:167-170`). -/
def addCookieParameterFlag (fs : FlagSet) (param : Parameter) : FlagSet :=
  addStringFlag fs param.name "" param.description

/-- Model of `utils.AddParameterFlags` (`flags.go:71-102`): for each parameter in
order, skip it when a flag of that name already exists, dispatch on the
location, abort with an error on an unsupported location, and mark the
just-added flag required when the parameter is required. -/
def AddParameterFlags (fs : FlagSet) : List Parameter → Except String FlagSet
  | [] => .ok fs
  | param :: rest =>
    if (lookupFlag fs param.name).isSome then
      AddParameterFlags fs rest
    else
      match param.In with
      | "path" => AddParameterFlags fs rest
      | "query" =>
        let fs1 := addQueryParameterFlag fs param
        let fs2 := if param.required then markFlagRequired fs1 param.name else fs1
        AddParameterFlags fs2 rest
      | "header" =>
        let fs1 := addHeaderParameterFlag fs param
        let fs2 := if param.required then markFlagRequired fs1 param.name else fs1
        AddParameterFlags fs2 rest
      | "cookie" =>
        let fs1 := addCookieParameterFlag fs param
        let fs2 := if param.required then markFlagRequired fs1 param.name else fs1
        AddParameterFlags fs2 rest
      | other => .error ("unsupported parameter location: " ++ other)

end OnTap

namespace OnTap

/-! ## Endpoints and command naming (`cmd/dynamic.go`) -/

/-- Model of `openapi.Endpoint`, restricted to the fields `cmd/dynamic.go` reads
(request body, responses and security play no role in the claims).
Its parameters have the same shape as `utils.Parameter` above, so the
type is shared. -/
structure Endpoint where
  path : String
  method : String
  operationId : String := ""
  summary : String := ""
  description : String := ""
  parameters : List Parameter := []
  tags : List String := []
  deprecated : Bool := false

/-- The command-name synthesis of `getCommandUse` (`dynamic.go:254-260`):
the operation id verbatim when non-empty, otherwise
`lower(method) + "-" + ReplaceAll(path, "/", "-")` with a leading
hyphen stripped from the combined string. -/
def commandName (endpoint : Endpoint) : String :=
  let name := endpoint.operationId
  if name = "" then
    goTrimPrefix (goToLower endpoint.method ++ "-" ++ goReplaceAll endpoint.path "/" "-") "-"
  else
    name

/-- Model of `getCommandUse` (`dynamic.go:252-275`): the command token followed by
the bracketed list of path-parameter names, when there are any. -/
def getCommandUse (endpoint : Endpoint) : String :=
  let name := commandName endpoint
  let pathParams := (endpoint.parameters.filter (fun p => p.In = "path")).map Parameter.name
  if pathParams.isEmpty then name
  else name ++ " [" ++ " ".intercalate pathParams ++ "]"

/-- Spec-side description of "path with every slash replaced by a
hyphen": a character-wise substitution, written independently of
`goReplaceAll` to compare the two. -/
def specHyphenate (p : String) : String :=
  ⟨p.data.map (fun c => if c = '/' then '-' else c)⟩

/-- The path-parameter binding loop of `executeEndpoint`
(`dynamic.go:396-403`): walk the **full** parameter list with its index
`i`; a parameter at position `i` that is located in the path and for
which a positional argument `args[i]` exists has every occurrence of
`\x7bname\x7d` in the path replaced by `args[i]`. -/
def bindPathParamsAux (args : List String) : List Parameter → Nat → String → String
  | [], _, path => path
  | param :: rest, i, path =>
    let path' :=
      if param.In = "path" ∧ i < args.length then
        goReplaceAll path ("\x7b" ++ param.name ++ "\x7d") (args.getD i "")
      else path
    bindPathParamsAux args rest (i + 1) path'

/-- Path resolution of `executeEndpoint`: the binding loop started at
index `0` on the endpoint's path template. -/
def bindPathParams (params : List Parameter) (args : List String) (path : String) : String :=
  bindPathParamsAux args params 0 path

/-- Spec-side view of the binding loop: the list of
`(placeholder name, argument)` pairs it substitutes — the path-located
parameters at full-list position `i < |args|`, each paired with
`args[i]`. -/
def pathBindings (params : List Parameter) (args : List String) : List (String × String) :=
  (params.enum.filter (fun p => p.2.In = "path" && decide (p.1 < args.length))).map
    (fun p => (p.2.name, args.getD p.1 ""))

/-- Applying a list of placeholder substitutions in order. -/
def applyPathBindings (bs : List (String × String)) (path : String) : String :=
  bs.foldl (fun p b => goReplaceAll p ("\x7b" ++ b.1 ++ "\x7d") b.2) path

/-! ## Flag-value parsers (`internal/pkg/utils/flags.go:228-322`) -/

/-- Insertion into a Go `map[string]string`, modelled as an assoc list
keyed by first occurrence (Go maps are unordered; no claim depends on
entry order). -/
def mapSet (m : List (String × String)) (k v : String) : List (String × String) :=
  if m.any (fun p => p.1 = k) then
    m.map (fun p => if p.1 = k then (k, v) else p)
  else
    List.append m [(k, v)]

/-- Helper for `utils.ParseHeaderFlags`: split each `key:value` on the
first colon, trim both sides, error out on a value with no colon. -/
def ParseHeaderFlagsAux (acc : List (String × String)) :
    List String → Except String (List (String × String))
  | [] => .ok acc
  | value :: rest =>
    match goSplitN2Char ':' value.data with
    | none => .error ("invalid header format: " ++ value)
    | some (k, v) =>
      ParseHeaderFlagsAux (mapSet acc (goTrimSpace ⟨k⟩) (goTrimSpace ⟨v⟩)) rest

/-- Model of `utils.ParseHeaderFlags`. -/
def ParseHeaderFlags (values : List String) : Except String (List (String × String)) :=
  ParseHeaderFlagsAux [] values

/-- Helper for `utils.ParseQueryFlags`: split each `key=value` on the
first `=`, error out on a value with no `=`. -/
def ParseQueryFlagsAux (acc : List (String × String)) :
    List String → Except String (List (String × String))
  | [] => .ok acc
  | value :: rest =>
    match goSplitN2Char '=' value.data with
    | none => .error ("invalid query parameter format: " ++ value)
    | some (k, v) => ParseQueryFlagsAux (mapSet acc ⟨k⟩ ⟨v⟩) rest

/-- Model of `utils.ParseQueryFlags`. -/
def ParseQueryFlags (values : List String) : Except String (List (String × String)) :=
  ParseQueryFlagsAux [] values

/-- Helper for `utils.ParseFormFlags`: split each `key=value` on the
first `=`; a value starting with `@` goes into the form-files map,
anything else into the form-data map.  Both maps always come back
non-nil in Go (`make`), which the caller preserves. -/
def ParseFormFlagsAux (formData formFiles : List (String × String)) :
    List String → Except String (List (String × String) × List (String × String))
  | [] => .ok (formData, formFiles)
  | value :: rest =>
    match goSplitN2Char '=' value.data with
    | none => .error ("invalid form data format: " ++ value)
    | some (k, v) =>
      if goHasPrefix ⟨v⟩ "@" then
        ParseFormFlagsAux formData (mapSet formFiles ⟨k⟩ ⟨v⟩) rest
      else
        ParseFormFlagsAux (mapSet formData ⟨k⟩ ⟨v⟩) formFiles rest

/-- Model of `utils.ParseFormFlags`: returns `(formData, formFiles)`. -/
def ParseFormFlags (values : List String) :
    Except String (List (String × String) × List (String × String)) :=
  ParseFormFlagsAux [] [] values

end OnTap

namespace OnTap

/-! ## HTTP client (`internal/pkg/http/client.go`)

The pieces of the Go standard library the client calls —
`net/url` resolution, the file system, and the HTTP transport — are
not part of the repository; they enter the model as explicit function
parameters (`urlResolver`, `fileReader`, `transport`).  Durations are
real time and are dropped from the model. -/

/-- Model of `http.Client` (the fields the claims touch; `Timeout` and the inner
`http.Client` live behind the `transport` parameter). -/
structure Client where
  BaseURL : String
  Headers : List (String × String)
  Auth : String
  Verbose : Bool

/-- Model of `http.NewClient`. -/
def NewClient (baseURL auth : String) : Client :=
  { BaseURL := baseURL
    Auth := auth
    Headers := [("User-Agent", "OnTap CLI")]
    Verbose := false }

/-- Model of `http.Request`: Go `nil` maps are `none` (an empty-but-allocated map
is `some []`, a distinction `Client.Execute`'s body selection reads). -/
structure Request where
  Method : String
  Path : String
  QueryParams : List (String × List String)
  Headers : List (String × String)
  Body : Option GoVal
  FormData : Option (List (String × String)) := none
  FormFiles : Option (List (String × String)) := none
  Auth : String := ""
  DryRun : Bool := false

/-- Model of `http.Response` (Duration dropped: real time).  `Headers`/`Body` are
`Option` because the dry-run response carries Go `nil` for both. -/
structure Response where
  StatusCode : Int
  Headers : Option (List (String × String))
  Body : Option String
  Request : Request

/-- The request body produced by `createJSONBody`/`createFormBody`: no
body, a JSON document, or a multipart form (fields, plus file parts as
`(field name, base file name, file content)`). -/
inductive ReqBody where
  | empty
  | jsonBody (v : GoVal)
  | multipartBody (fields : List (String × String)) (files : List (String × String × String))

/-- Model of `Client.createJSONBody`: `json.Marshal` never fails on JSON-decoded
data, so this is total; content type `application/json`. -/
def createJSONBody (v : GoVal) : ReqBody × String :=
  (.jsonBody v, "application/json")

/-- Go `filepath.Base`. -/
def goFilepathBase (path : String) : String :=
  if path.data.isEmpty then "."
  else
    let stripped := (path.data.reverse.dropWhile (fun c => c = '/')).reverse
    if stripped.isEmpty then "/"
    else ⟨(stripped.reverse.takeWhile (fun c => c != '/')).reverse⟩

/-- The two loops of `Client.createFormBody`: form-data entries become
fields; a form-file entry whose value starts with `@` is read from the
file system and becomes a file part (failure aborts), any other
form-file entry becomes a plain field. -/
def createFormBodyAux (fileReader : String → Except String String)
    (fields : List (String × String)) (files : List (String × String × String)) :
    List (String × String) → Except String (List (String × String) × List (String × String × String))
  | [] => .ok (fields, files)
  | (k, v) :: rest =>
    if goHasPrefix v "@" then
      let filePath : String := ⟨v.data.drop 1⟩
      match fileReader filePath with
      | .error e => .error ("failed to open file: " ++ e)
      | .ok content =>
        createFormBodyAux fileReader fields
          (List.append files [(k, goFilepathBase filePath, content)]) rest
    else
      createFormBodyAux fileReader (List.append fields [(k, v)]) files rest

/-- Model of `Client.createFormBody`: multipart body from `(formData, formFiles)`;
the content type is `multipart/form-data` (the random boundary suffix
is elided). -/
def createFormBody (fileReader : String → Except String String)
    (formData formFiles : List (String × String)) : Except String (ReqBody × String) :=
  match createFormBodyAux fileReader formData [] formFiles with
  | .error e => .error e
  | .ok (fields, files) => .ok (.multipartBody fields files, "multipart/form-data")

/-- The standard base64 alphabet (`encoding/base64.StdEncoding`). -/
def base64Alphabet : List Char :=
  "ABCDEFGHIJKLMNOPQRSTUVWXYZabcdefghijklmnopqrstuvwxyz0123456789+/".data

/-- One base64 output character. -/
def base64Digit (n : Nat) : Char :=
  base64Alphabet.getD n 'A'

/-- Go `base64.StdEncoding.EncodeToString` on a byte list. -/
def base64Encode : List Nat → List Char
  | [] => []
  | [a] =>
    [base64Digit (a / 4), base64Digit (a % 4 * 16), '=', '=']
  | [a, b] =>
    [base64Digit (a / 4), base64Digit (a % 4 * 16 + b / 16), base64Digit (b % 16 * 4), '=']
  | a :: b :: c :: rest =>
    base64Digit (a / 4) :: base64Digit (a % 4 * 16 + b / 16) ::
      base64Digit (b % 16 * 4 + c / 64) :: base64Digit (c % 64) :: base64Encode rest

/-- What `Client.addAuth` does to the outgoing request, as a descriptive
outcome: `req.SetBasicAuth(u, p)`, a verbatim `Authorization` header,
or an `X-API-Key` header. -/
inductive AuthAction where
  | basicAuth (username password : String)
  | authHeader (value : String)
  | apiKeyHeader (value : String)
deriving DecidableEq

/-- Model of `Client.addAuth` (`client.go:494-509`): a string containing `:` is
split at the first colon into basic-auth credentials; otherwise a
`Bearer ` or `Basic ` prefix makes the string a verbatim
`Authorization` header value; otherwise the string is an API key sent
as `X-API-Key`. -/
def addAuth (auth : String) : AuthAction :=
  if goContains auth ":" then
    match goSplitN2Char ':' auth.data with
    | some (u, p) => .basicAuth ⟨u⟩ ⟨p⟩
    | none => .basicAuth auth ""
  else if goHasPrefix auth "Bearer " then
    .authHeader auth
  else if goHasPrefix auth "Basic " then
    .authHeader auth
  else
    .apiKeyHeader auth

/-- Effect of the chosen auth action on the request headers
(`req.SetBasicAuth` sets `Authorization: Basic base64(user:pass)`). -/
def applyAuthAction (headers : List (String × String)) : AuthAction → List (String × String)
  | .basicAuth u p =>
    mapSet headers "Authorization"
      ("Basic " ++ (⟨base64Encode ((u ++ ":" ++ p).data.map Char.toNat)⟩ : String))
  | .authHeader v => mapSet headers "Authorization" v
  | .apiKeyHeader v => mapSet headers "X-API-Key" v

/-- The `net/http` request handed to the transport. -/
structure HttpRequest where
  Method : String
  URL : String
  Header : List (String × String)
  body : ReqBody

/-- What the HTTP transport returns (`HTTPClient.Do` plus
`io.ReadAll` on the response body, folded into one oracle). -/
structure TransportResponse where
  StatusCode : Int
  Headers : List (String × String)
  Body : String

/-- Result of `Client.Execute` together with the request the transport
was invoked on (`none` when the transport was never called). -/
structure ExecOutcome where
  result : Except String Response
  transportArg : Option HttpRequest

/-- The body-resolution step of `Client.Execute`
(`client.go:254-267`): the body is multipart form data when either
form map is non-nil (even when both are empty), else the JSON encoding
of `req.Body` when that is non-nil, else no body. -/
def resolveRequestBody (fileReader : String → Except String String)
    (req : Request) : Except String (ReqBody × String) :=
  if req.FormData.isSome || req.FormFiles.isSome then
    match createFormBody fileReader (req.FormData.getD []) (req.FormFiles.getD []) with
    | .error e => .error ("failed to create form body: " ++ e)
    | .ok p => .ok p
  else
    match req.Body with
    | some v => .ok (createJSONBody v)
    | none => .ok (.empty, "")

/-- Go `httpguts.IsTokenRune` restricted to ASCII (an HTTP method is
made of token characters: letters, digits and
`! # $ % & ' * + - . ^ _ \x60 | ~`). -/
def isTokenChar (c : Char) : Bool :=
  c.isAlphanum || c = '!' || c = '#' || c = '$' || c = '%' || c = '&' || c = '\'' ||
    c = '*' || c = '+' || c = '-' || c = '.' || c = '^' || c = '_' ||
    c = Char.ofNat 96 || c = '|' || c = '~'

/-- Go `net/http`'s `validMethod`: non-empty and all token characters. -/
def validMethod (method : String) : Bool :=
  method ≠ "" && method.data.all isTokenChar

/-- Model of `Client.Execute` (`client.go:244-339`): build the URL, resolve the
body (multipart when either form map is non-nil, else JSON when a body
value is present), create the `net/http` request — `http.NewRequest`
(`client.go:270-273`) defaults an empty method to `GET`, rejects an
invalid method token, and always re-parses the URL successfully here
because the string is the serialization of an already-parsed URL —
then assemble headers and auth, short-circuit with the dummy response
on dry-run, and otherwise call the transport. -/
def ClientExecute
    (urlResolver : String → String → List (String × List String) → Except String String)
    (fileReader : String → Except String String)
    (transport : HttpRequest → Except String TransportResponse)
    (c : Client) (req : Request) : ExecOutcome :=
  match urlResolver c.BaseURL req.Path req.QueryParams with
  | .error e => ⟨.error ("failed to build URL: " ++ e), none⟩
  | .ok reqURL =>
    match resolveRequestBody fileReader req with
    | .error e => ⟨.error e, none⟩
    | .ok (body, contentType) =>
      let methodTok := if req.Method = "" then "GET" else req.Method
      if ¬ validMethod methodTok then
        ⟨.error ("failed to create request: net/http: invalid method \"" ++
          methodTok ++ "\""), none⟩
      else
      let headers0 := c.Headers.foldl (fun h p => mapSet h p.1 p.2) []
      let headers1 := req.Headers.foldl (fun h p => mapSet h p.1 p.2) headers0
      let headers2 :=
        if contentType ≠ "" then mapSet headers1 "Content-Type" contentType else headers1
      let auth := if req.Auth = "" then c.Auth else req.Auth
      let headers3 :=
        if auth ≠ "" then applyAuthAction headers2 (addAuth auth) else headers2
      let httpReq : HttpRequest := ⟨methodTok, reqURL, headers3, body⟩
      if req.DryRun then
        ⟨.ok { StatusCode := 0, Headers := none, Body := none, Request := req }, none⟩
      else
        match transport httpReq with
        | .error e => ⟨.error ("failed to execute request: " ++ e), some httpReq⟩
        | .ok tresp =>
          ⟨.ok { StatusCode := tresp.StatusCode
                 Headers := some tresp.Headers
                 Body := some tresp.Body
                 Request := req }, some httpReq⟩

end OnTap

namespace OnTap

/-! ## Field extraction (`internal/pkg/output/format.go:440-517`) -/

/-- Go map lookup on the assoc-list model of
`map[string]interface\x7b\x7d`. -/
def goLookup (m : List (String × GoVal)) (k : String) : Option GoVal :=
  (m.find? (fun p => p.1 = k)).map (fun p => p.2)

/-- Go map insert on the assoc-list model. -/
def goObjSet (m : List (String × GoVal)) (k : String) (v : GoVal) : List (String × GoVal) :=
  if m.any (fun p => p.1 = k) then
    m.map (fun p => if p.1 = k then (k, v) else p)
  else
    List.append m [(k, v)]

/-- The traversal loop of `output.extractField`: descend into a mapping
by key; on a sequence the literal token `[]` returns the whole sequence
at once (ignoring any remaining parts, as the Go `return v, nil`
does), any other token on a sequence is an error; any other shape
(including Go `nil`, strings, numbers, booleans) is an error. -/
def extractFieldAux : List String → GoVal → Except String GoVal
  | [], current => .ok current
  | part :: rest, current =>
    match current with
    | .vObj m =>
      match goLookup m part with
      | some v => extractFieldAux rest v
      | none => .error ("field not found: " ++ part)
    | .vList xs =>
      if part = "[]" then .ok (.vList xs)
      else .error ("array indexing not supported: " ++ part)
    | _ => .error ("cannot access field " ++ part)

/-- Model of `output.extractField`: split the field path on `.` and walk it. -/
def extractField (data : GoVal) (field : String) : Except String GoVal :=
  extractFieldAux ((goSplitChar '.' field.data).map (fun l => (⟨l⟩ : String))) data

/-- Model of `output.ExtractFields`: the JSON marshal/unmarshal round trip is the
identity on already-decoded data (and cannot fail on it); each field is
extracted independently, failures are logged and the field is skipped,
successes are collected into a map keyed by the field path. -/
def ExtractFields (data : GoVal) (fields : List String) : Except String GoVal :=
  if fields.isEmpty then .ok data
  else
    .ok (.vObj (fields.foldl
      (fun acc field =>
        match extractField data field with
        | .ok value => goObjSet acc field value
        | .error _ => acc)
      []))

/-- Model of `output.FilterData`: the same dot-path mechanism applied once; its
error propagates. -/
def FilterData (data : GoVal) (filter : String) : Except String GoVal :=
  if filter = "" then .ok data
  else extractField data filter

/-- Model of `output.NewFormatter`, reduced to the format tag it validates (the
formatter object itself only matters at rendering time). -/
def NewFormatter (format : String) : Except String String :=
  match goToLower format with
  | "json" => .ok "json"
  | "yaml" => .ok "yaml"
  | "yml" => .ok "yaml"
  | "csv" => .ok "csv"
  | "text" => .ok "text"
  | "txt" => .ok "text"
  | "table" => .ok "table"
  | other => .error ("unsupported output format: " ++ other)

/-! ## Endpoint invocation (`cmd/dynamic.go:278-471`) -/

/-- Model of `config.APIConfig` (the fields `executeEndpoint` reads). -/
structure APIConfig where
  APISpec : String := ""
  Auth : String := ""
  URL : String := ""
  DefaultOutput : String := ""
  Headers : List (String × String) := []

/-- Go `url.Values.Add`: append a value to the key's slice. -/
def urlValuesAdd (qs : List (String × List String)) (k v : String) :
    List (String × List String) :=
  if qs.any (fun p => p.1 = k) then
    qs.map (fun p => if p.1 = k then (p.1, List.append p.2 [v]) else p)
  else
    List.append qs [(k, [v])]

/-- The flag values of one leaf-command invocation, as the cobra layer
(an external collaborator) hands them to `executeEndpoint`.  `data` is
the value already parsed by `utils.ParseDataFlag` (`none` when the
`--data` flag was empty); `paramFlagValue` is the CLI layer's string
value for a generated parameter flag (`none` when cobra's `GetString`
fails on it, e.g. for a non-string flag). -/
structure InvocationInputs where
  outputFormat : String := "json"
  savePath : String := ""
  extractStr : String := ""
  filter : String := ""
  verbose : Bool := false
  dryRun : Bool := false
  data : Option GoVal := none
  headerStrs : List String := []
  queryStrs : List String := []
  formStrs : List String := []
  authFlag : String := ""
  contentType : String := ""
  paramFlagValue : String → Option String := fun _ => none

/-- How one invocation ends when no error is returned: the dry-run
message ("Dry run completed. No request was sent.", no response data),
or the final response value reaching the output writer together with
the format tag and save path (the rendering itself is external). -/
inductive InvocationResult where
  | dryRunCompleted
  | completed (responseData : GoVal) (format savePath : String)

/-- Result of one invocation together with the request the transport
was invoked on (`none` when no network call was made). -/
structure InvocationOutcome where
  result : Except String InvocationResult
  transportArg : Option HttpRequest

/-- Model of `executeEndpoint` (`dynamic.go:278-471`) from the point where the
flag values are in hand: parse the repeatable flags, build the request
(path parameters bound by the full-list-index loop, declared query
parameters sourced from their generated flags, `--query` overrides
added on top), run `Client.Execute`, then either report the dry run or
decode/extract/filter the response body (`jsonDecode` is
`json.Unmarshal`, an external decoder: `none` means the body is not
valid JSON and the raw string is used). -/
def executeEndpoint
    (urlResolver : String → String → List (String × List String) → Except String String)
    (fileReader : String → Except String String)
    (transport : HttpRequest → Except String TransportResponse)
    (jsonDecode : String → Option GoVal)
    (inputs : InvocationInputs) (endpoint : Endpoint) (apiConfig : APIConfig)
    (args : List String) : InvocationOutcome :=
  let extractFields : List String :=
    if inputs.extractStr ≠ "" then
      (goSplitChar ',' inputs.extractStr.data).map (fun l => (⟨l⟩ : String))
    else []
  match ParseHeaderFlags inputs.headerStrs with
  | .error e => ⟨.error ("failed to parse headers: " ++ e), none⟩
  | .ok headers0 =>
  match ParseQueryFlags inputs.queryStrs with
  | .error e => ⟨.error ("failed to parse query parameters: " ++ e), none⟩
  | .ok queryOverrides =>
  match ParseFormFlags inputs.formStrs with
  | .error e => ⟨.error ("failed to parse form data: " ++ e), none⟩
  | .ok (formData, formFiles) =>
  let auth := if inputs.authFlag = "" then apiConfig.Auth else inputs.authFlag
  let headers :=
    if inputs.contentType ≠ "" then mapSet headers0 "Content-Type" inputs.contentType
    else headers0
  let client := { NewClient apiConfig.URL auth with Verbose := inputs.verbose }
  let declaredQuery := endpoint.parameters.foldl
    (fun qs param =>
      if param.In = "query" then
        match inputs.paramFlagValue param.name with
        | some value => if value ≠ "" then urlValuesAdd qs param.name value else qs
        | none => qs
      else qs)
    ([] : List (String × List String))
  let allQuery := queryOverrides.foldl (fun qs p => urlValuesAdd qs p.1 p.2) declaredQuery
  let req : Request :=
    { Method := endpoint.method
      Path := bindPathParams endpoint.parameters args endpoint.path
      QueryParams := allQuery
      Headers := headers
      Body := inputs.data
      FormData := some formData
      FormFiles := some formFiles
      Auth := ""
      DryRun := inputs.dryRun }
  match ClientExecute urlResolver fileReader transport client req with
  | ⟨.error e, targ⟩ => ⟨.error ("failed to execute request: " ++ e), targ⟩
  | ⟨.ok resp, targ⟩ =>
    if inputs.dryRun then ⟨.ok .dryRunCompleted, targ⟩
    else
      let responseData : GoVal :=
        match resp.Body with
        | some bodyStr =>
          if bodyStr ≠ "" then
            match jsonDecode bodyStr with
            | some v => v
            | none => .vStr bodyStr
          else .vNull
        | none => .vNull
      let responseData :=
        if ¬ extractFields.isEmpty then
          match ExtractFields responseData extractFields with
          | .ok d => d
          | .error _ => .vNull
        else responseData
      let responseData :=
        if inputs.filter ≠ "" then
          match FilterData responseData inputs.filter with
          | .ok d => d
          | .error _ => .vNull
        else responseData
      match NewFormatter inputs.outputFormat with
      | .error e => ⟨.error ("failed to create formatter: " ++ e), targ⟩
      | .ok _ =>
        ⟨.ok (.completed responseData inputs.outputFormat inputs.savePath), targ⟩

end OnTap

namespace OnTap

/-! ## Spec cache (`internal/pkg/cache`, `cmd/dynamic.go:154-227`)

The parsed document type is a type parameter `δ` (the libopenapi
document model is external); `crypto/sha256` is external too and
enters as the parameter `sha256Bytes`.  Wall-clock instants are `Nat`
(`time.Now()` is passed in as `now`). -/

/-- Model of `generateCacheKey` in `cmd/dynamic.go:224-227`: the spec path
itself. -/
def dynamicGenerateCacheKey (specPath : String) : String :=
  specPath

/-- One lowercase hex digit. -/
def hexDigit (n : Nat) : Char :=
  "0123456789abcdef".data.getD n '0'

/-- Go `hex.EncodeToString` on a byte list. -/
def hexEncode : List Nat → List Char
  | [] => []
  | b :: rest => hexDigit (b / 16) :: hexDigit (b % 16) :: hexEncode rest

/-- Model of `LibOpenAPICacheManager.generateCacheKey` (`manager.go:97-101`):
`hex.EncodeToString(sha256.Sum256([]byte(specPath)))`, with the hash
function itself supplied from outside. -/
def managerGenerateCacheKey (sha256Bytes : String → List Nat) (specPath : String) : String :=
  ⟨hexEncode (sha256Bytes specPath)⟩

/-- Model of `LibOpenAPICacheEntry`. -/
structure CacheEntry (δ : Type) where
  Spec : δ
  CreatedAt : Nat
  ExpiresAt : Nat

/-- Model of `CacheEntry.IsExpired`: `time.Now().After(ExpiresAt)`. -/
def entryIsExpired {δ : Type} (now : Nat) (e : CacheEntry δ) : Bool :=
  e.ExpiresAt < now

/-- The cache store's keyed entries (the in-memory map and the cache
file for a key hold the same entry, so one map models both). -/
def CacheStore (δ : Type) : Type :=
  List (String × CacheEntry δ)

/-- Raw lookup in the store. -/
def storeLookup {δ : Type} (s : CacheStore δ) (key : String) : Option (CacheEntry δ) :=
  (s.find? (fun p => p.1 = key)).map (fun p => p.2)

/-- Model of `Store.Delete`. -/
def storeDelete {δ : Type} (s : CacheStore δ) (key : String) : CacheStore δ :=
  s.filter (fun p => p.1 ≠ key)

/-- Model of `Store.Set` (`store.go`): a fresh entry valid for `ttl` from `now`,
replacing any entry under the same key. -/
def storeSet {δ : Type} (s : CacheStore δ) (key : String) (spec : δ) (ttl now : Nat) :
    CacheStore δ :=
  if s.any (fun p => p.1 = key) then
    s.map (fun p => if p.1 = key then (key, ⟨spec, now, now + ttl⟩) else p)
  else
    List.append s [(key, (⟨spec, now, now + ttl⟩ : CacheEntry δ))]

/-- Model of `Store.Get`: an absent key is an error (`failed to read cache
file`); an expired entry is deleted and reported as an error. -/
def storeGet {δ : Type} (now : Nat) (s : CacheStore δ) (key : String) :
    Except String (CacheEntry δ) × CacheStore δ :=
  match storeLookup s key with
  | none => (.error "failed to read cache file", s)
  | some entry =>
    if entryIsExpired now entry then
      (.error "cache entry expired", storeDelete s key)
    else
      (.ok entry, s)

/-- Result of `LibOpenAPICacheManager.GetSpec`: the returned document
or error, the store afterwards, and whether the document came from the
cache. -/
structure GetSpecOutcome (δ : Type) where
  result : Except String δ
  store : CacheStore δ
  fromCache : Bool

/-- The load-and-cache arm of `GetSpec`: `LoadLibOpenAPISpec` then
`Store.Set` under the manager's key (a failed `Set` is only logged). -/
def getSpecLoadArm {δ : Type} (loadSpec : String → Except String δ) (now : Nat)
    (s : CacheStore δ) (key specPath : String) (ttl : Nat) : GetSpecOutcome δ :=
  match loadSpec specPath with
  | .error e => ⟨.error ("failed to load spec: " ++ e), s, false⟩
  | .ok spec => ⟨.ok spec, storeSet s key spec ttl now, false⟩

/-- Model of `LibOpenAPICacheManager.GetSpec` (`manager.go:40-64`): look the
cache up under `generateCacheKey(specPath)` — the sha256 key — and
return the entry when present and unexpired; otherwise load from the
source and cache under the same key. -/
def GetSpec {δ : Type} (sha256Bytes : String → List Nat)
    (loadSpec : String → Except String δ) (now : Nat)
    (s : CacheStore δ) (specPath : String) (ttl : Nat) : GetSpecOutcome δ :=
  let key := managerGenerateCacheKey sha256Bytes specPath
  match storeGet now s key with
  | (.ok entry, s1) =>
    if ¬ entryIsExpired now entry then ⟨.ok entry.Spec, s1, true⟩
    else getSpecLoadArm loadSpec now s1 key specPath ttl
  | (.error _, s1) => getSpecLoadArm loadSpec now s1 key specPath ttl

/-- Result of `loadOpenAPISpec`. -/
structure LoadSpecOutcome (δ : Type) where
  result : Except String δ
  store : CacheStore δ

/-- Model of `loadOpenAPISpec` (`dynamic.go:154-191`): clear the cache when the
env escape hatch is set, try the cache manager, and on failure parse
the spec directly and cache it under `generateCacheKey(specPath)` —
the **path** key of `dynamic.go`, not the manager's sha256 key.  The
manager's internal load and the direct `parser.ParseSpec` call are two
separate invocations of the same parser at different times, so they
enter as two oracle results (`getSpecLoad`, `directParse`); a failed
cache write is only logged. -/
def loadOpenAPISpec {δ : Type} (sha256Bytes : String → List Nat)
    (getSpecLoad directParse : String → Except String δ) (now : Nat)
    (clearCacheEnv : Bool) (s : CacheStore δ) (specPath : String) (ttl : Nat) :
    LoadSpecOutcome δ :=
  let s0 : CacheStore δ := if clearCacheEnv then [] else s
  let g := GetSpec sha256Bytes getSpecLoad now s0 specPath ttl
  match g.result with
  | .ok spec => ⟨.ok spec, g.store⟩
  | .error _ =>
    match directParse specPath with
    | .error e => ⟨.error ("failed to parse spec: " ++ e), g.store⟩
    | .ok spec =>
      ⟨.ok spec, storeSet g.store (dynamicGenerateCacheKey specPath) spec ttl now⟩

end OnTap

namespace OnTap

/-! ## Spec-side descriptions

Definitions written from the specification's wording, to be compared
against the code-side definitions above. -/

/-- The flag kind the code actually derives for a non-path parameter:
for a query parameter it follows the translated schema type
(`string`→string, `integer`/`number`→integer, `boolean`→bool,
`array`→repeatable string, anything else or no schema→string); a
header or cookie parameter always gets a plain string flag. -/
def specFlagKind (location : String) (schema : Option ParameterSchema) : FlagKind :=
  if location = "query" then
    match schema with
    | none => .str
    | some s =>
      match s.type_ with
      | "string" => .str
      | "integer" | "number" => .int
      | "boolean" => .bool
      | "array" => .strArray
      | _ => .str
  else
    .str

/-- The flag default the code actually derives for a non-path
parameter: for a query parameter, a string flag renders `%v` of the
schema default when one is present; an integer flag truncates the
default only when its dynamic type is `float64`; a bool flag uses the
default only when its dynamic type is `bool`; an array flag is always
empty regardless of any schema default; other kinds and header/cookie
parameters always get the empty-string default. -/
def specFlagDefault (location : String) (schema : Option ParameterSchema) : FlagDefault :=
  if location = "query" then
    match schema with
    | none => .defStr ""
    | some s =>
      match s.type_ with
      | "string" =>
        .defStr (match s.default with
          | none => ""
          | some d => goFormatV d)
      | "integer" | "number" =>
        .defInt (match s.default with
          | some (.vFloat q) => truncFloat q
          | _ => 0)
      | "boolean" =>
        .defBool (match s.default with
          | some (.vBool b) => b
          | _ => false)
      | "array" => .defStrArray []
      | _ => .defStr ""
  else
    .defStr ""

/-! ## Theorems -/

/-- Go `strings.ReplaceAll` with a single-character pattern and
replacement is the character-wise substitution. -/
theorem goReplaceAllAux_single (c₀ c₁ : Char) :
    ∀ (l : List Char) (fuel : Nat), l.length ≤ fuel →
      goReplaceAllAux c₀ [] [c₁] fuel l = l.map (fun c => if c = c₀ then c₁ else c)
  | [], 0, _ => rfl
  | [], _ + 1, _ => rfl
  | _ :: _, 0, h => absurd h (by simp)
  | c :: rest, fuel + 1, h => by
    simp only [goReplaceAllAux, List.isPrefixOf, List.map_cons]
    have hr : rest.length ≤ fuel := by
      simpa using h
    by_cases hc : c = c₀
    · subst hc
      simp [goReplaceAllAux_single c c₁ rest fuel hr]
    · have hb : (c₀ == c) = false := by
        simp [BEq.beq]
        exact fun hh => hc hh.symm
      simp [hb, hc, goReplaceAllAux_single c₀ c₁ rest fuel hr]

/-- Replacing the slashes of a path by hyphens, as `getCommandUse` does
with `strings.ReplaceAll`, is exactly the spec-side character
substitution `specHyphenate`. -/
theorem goReplaceAll_slash (p : String) :
    goReplaceAll p "/" "-" = specHyphenate p := by
  show String.mk (goReplaceAllAux '/' [] ['-'] p.data.length p.data) = _
  rw [goReplaceAllAux_single '/' '-' p.data p.data.length (Nat.le_refl _)]
  rfl

end OnTap

namespace OnTap

/-- C7 (amended): the derived command token is the operationId verbatim
when it is non-empty; when it is empty, the token is
`lower(method) ++ "-" ++` the path with every slash replaced by a
hyphen, with a leading hyphen then stripped from the combined string —
a strip that never fires when the method is non-empty, so GET on
`/pets/\x7bid\x7d` with no operationId yields `get--pets-\x7bid\x7d`
(double hyphen), not `get-pets-\x7bid\x7d`. -/
theorem commandName_rule (e : Endpoint) :
    (e.operationId ≠ "" → commandName e = e.operationId) ∧
    (e.operationId = "" →
      commandName e = goTrimPrefix (goToLower e.method ++ "-" ++ specHyphenate e.path) "-") := by
  constructor
  · intro h
    simp [commandName, h]
  · intro h
    simp [commandName, h, goReplaceAll_slash]

/-- Witness for `commandName_rule` at the endpoint GET
`/pets/\x7bid\x7d` with no operationId. -/
theorem commandName_rule_witness :
    ({ path := "/pets/\x7bid\x7d", method := "GET" } : Endpoint).operationId = "" ∧
    commandName { path := "/pets/\x7bid\x7d", method := "GET" } =
      goTrimPrefix (goToLower "GET" ++ "-" ++ specHyphenate "/pets/\x7bid\x7d") "-" :=
  ⟨rfl, (commandName_rule { path := "/pets/\x7bid\x7d", method := "GET" }).2 rfl⟩

/-- C7 counterexample: for GET on `/pets/\x7bid\x7d` with empty
operationId the code derives `get--pets-\x7bid\x7d` — the claimed token
`get-pets-\x7bid\x7d` is wrong (the replaced path starts with a hyphen
and the leading-hyphen strip does not apply after the method prefix). -/
theorem commandName_pets_counterexample :
    ({ path := "/pets/\x7bid\x7d", method := "GET" } : Endpoint).operationId = "" ∧
    commandName { path := "/pets/\x7bid\x7d", method := "GET" } = "get--pets-\x7bid\x7d" ∧
    commandName { path := "/pets/\x7bid\x7d", method := "GET" } ≠ "get-pets-\x7bid\x7d" := by
  decide

/-- The binding loop of `executeEndpoint`, started at index `i`,
performs exactly the substitutions of the parameters enumerated from
`i`. -/
theorem bindPathParamsAux_eq (args : List String) :
    ∀ (l : List Parameter) (i : Nat) (p : String),
      bindPathParamsAux args l i p =
        applyPathBindings
          (((List.enumFrom i l).filter
              (fun q => q.2.In = "path" && decide (q.1 < args.length))).map
            (fun q => (q.2.name, args.getD q.1 ""))) p
  | [], i, p => by
    simp [bindPathParamsAux, applyPathBindings, List.enumFrom]
  | param :: rest, i, p => by
    by_cases h1 : param.In = "path" <;> by_cases h2 : i < args.length <;>
      simp [bindPathParamsAux, List.enumFrom, h1, h2, bindPathParamsAux_eq args rest,
        applyPathBindings]

/-- C1 (amended): the i-th supplied positional argument fills the path
parameter whose index **in the endpoint's full parameter list** is i
(so a path parameter preceded by k non-path parameters consumes the
argument at its full-list position, not the one at its position among
the path parameters, and a path parameter whose full-list index is
beyond the argument count is left unbound); independently, every
occurrence of `\x7bname\x7d` in the path template is replaced by the
value bound to that parameter, in declaration order. -/
theorem bindPathParams_eq_bindings (params : List Parameter) (args : List String)
    (path : String) :
    bindPathParams params args path = applyPathBindings (pathBindings params args) path := by
  simp [bindPathParams, pathBindings, List.enum, bindPathParamsAux_eq]

/-- C1 counterexample: with parameters `[q (query), id (path)]` and one
supplied argument, the claim binds the first path parameter `id` to the
argument and yields `/pets/7`; the code indexes the full parameter list
(where `id` sits at position 1 ≥ 1 = number of arguments) and leaves
the template untouched.  With two arguments the code binds `id` to
`args[1] = "b"`, while the claim binds the first path parameter to the
first argument `"a"`. -/
theorem bindPathParams_counterexample :
    bindPathParams [{ name := "q", In := "query" }, { name := "id", In := "path" }]
        ["7"] "/pets/\x7bid\x7d" = "/pets/\x7bid\x7d" ∧
    ("/pets/\x7bid\x7d" : String) ≠ "/pets/7" ∧
    bindPathParams [{ name := "q", In := "query" }, { name := "id", In := "path" }]
        ["a", "b"] "/pets/\x7bid\x7d" = "/pets/b" ∧
    ("/pets/b" : String) ≠ "/pets/a" := by
  decide

end OnTap

namespace OnTap

/-- Flag lookup distributes over appending registrations. -/
theorem lookupFlag_append (fs l : FlagSet) (n : String) :
    lookupFlag (List.append fs l) n = (lookupFlag fs n).or (lookupFlag l n) := by
  simp [lookupFlag, List.find?_append]

/-- A freshly appended flag is found under its own name when the name
was unused. -/
theorem lookupFlag_append_self (fs : FlagSet) (g : Flag)
    (hnew : lookupFlag fs g.name = none) :
    lookupFlag (List.append fs [g]) g.name = some g := by
  rw [lookupFlag_append, hnew]
  simp [lookupFlag]

/-- Marking a flag required does not touch flags with a different name. -/
theorem lookupFlag_markFlagRequired_ne (fs : FlagSet) (m n : String) (h : n ≠ m) :
    lookupFlag (markFlagRequired fs m) n = lookupFlag fs n := by
  induction fs with
  | nil => rfl
  | cons g gs ih =>
    simp only [markFlagRequired, lookupFlag, List.map_cons] at ih ⊢
    by_cases hn : g.name = n
    · have hgm : ¬ g.name = m := fun hh => h (hn ▸ hh)
      rw [if_neg hgm, List.find?_cons_of_pos _ (by simpa using hn),
        List.find?_cons_of_pos _ (by simpa using hn)]
    · by_cases hgm : g.name = m
      · rw [if_pos hgm, List.find?_cons_of_neg _ (by simpa using hn),
          List.find?_cons_of_neg _ (by simpa using hn)]
        exact ih
      · rw [if_neg hgm, List.find?_cons_of_neg _ (by simpa using hn),
          List.find?_cons_of_neg _ (by simpa using hn)]
        exact ih

/-- Marking a name required sets the `required` bit of the flag
registered under that name. -/
theorem lookupFlag_markFlagRequired_self (fs : FlagSet) (m : String) :
    lookupFlag (markFlagRequired fs m) m =
      (lookupFlag fs m).map (fun f => { f with required := true }) := by
  induction fs with
  | nil => rfl
  | cons g gs ih =>
    simp only [markFlagRequired, lookupFlag, List.map_cons] at ih ⊢
    by_cases hg : g.name = m
    · rw [if_pos hg, List.find?_cons_of_pos _ (by simpa using hg),
        List.find?_cons_of_pos _ (by simpa using hg)]
      rfl
    · rw [if_neg hg, List.find?_cons_of_neg _ (by simpa using hg),
        List.find?_cons_of_neg _ (by simpa using hg)]
      exact ih

/-- The function `addQueryParameterFlag` appends exactly one flag, whose kind and
default are the spec-side `specFlagKind`/`specFlagDefault` at location
`query`. -/
theorem addQueryParameterFlag_spec (fs : FlagSet) (param : Parameter) :
    addQueryParameterFlag fs param =
      List.append fs
        [⟨param.name, specFlagKind "query" param.schema,
          specFlagDefault "query" param.schema, param.description, false⟩] := by
  unfold addQueryParameterFlag specFlagKind specFlagDefault
  simp only [if_pos]
  split
  · rfl
  · split <;> rfl

end OnTap

namespace OnTap

/-- C3 (amended): within `AddParameterFlags`, a name for which a flag
already exists is skipped entirely — the earlier registration survives
untouched (neither its kind, default, nor required bit changes).
Consequently when two parameters share a (name, location) pair, the
**first-declared** one determines the registered flag, and the
later-declared duplicate is silently ignored. -/
theorem AddParameterFlags_preserves_existing :
    ∀ (params : List Parameter) (fs fs' : FlagSet) (n : String) (f : Flag),
      AddParameterFlags fs params = .ok fs' →
      lookupFlag fs n = some f →
      lookupFlag fs' n = some f
  | [], fs, fs', n, f, hok, hf => by
    simp only [AddParameterFlags] at hok
    cases hok
    exact hf
  | param :: rest, fs, fs', n, f, hok, hf => by
    simp only [AddParameterFlags] at hok
    by_cases hdup : (lookupFlag fs param.name).isSome
    · rw [if_pos hdup] at hok
      exact AddParameterFlags_preserves_existing rest fs fs' n f hok hf
    · rw [if_neg hdup] at hok
      have hnone : lookupFlag fs param.name = none := by
        cases h : lookupFlag fs param.name
        · rfl
        · rw [h] at hdup
          simp at hdup
      have hne : n ≠ param.name := by
        intro he
        rw [he, hnone] at hf
        cases hf
      have happend : ∀ g : Flag, lookupFlag (List.append fs [g]) n = some f := by
        intro g
        rw [lookupFlag_append, hf]
        rfl
      have hstep : ∀ fs1 : FlagSet, lookupFlag fs1 n = some f →
          lookupFlag (if param.required then markFlagRequired fs1 param.name else fs1) n
            = some f := by
        intro fs1 h1
        by_cases hr : param.required
        · rw [if_pos hr, lookupFlag_markFlagRequired_ne _ _ _ hne]
          exact h1
        · rw [if_neg hr]
          exact h1
      by_cases h1 : param.In = "path"
      · rw [h1] at hok
        exact AddParameterFlags_preserves_existing rest fs fs' n f hok hf
      by_cases h2 : param.In = "query"
      · rw [h2] at hok
        refine AddParameterFlags_preserves_existing rest _ fs' n f hok (hstep _ ?_)
        rw [addQueryParameterFlag_spec]
        exact happend _
      by_cases h3 : param.In = "header"
      · rw [h3] at hok
        exact AddParameterFlags_preserves_existing rest _ fs' n f hok (hstep _ (happend _))
      by_cases h4 : param.In = "cookie"
      · rw [h4] at hok
        exact AddParameterFlags_preserves_existing rest _ fs' n f hok (hstep _ (happend _))
      · simp only [h1, h2, h3, h4] at hok
        cases hok

end OnTap

namespace OnTap

/-- C3 counterexample: two query parameters both named `limit` — the
first typed `string` with default `"a"`, the second typed `boolean` —
produce the flag derived from the **first**-declared parameter (a
string flag with default `"a"`), not from the last-declared one as the
claim states. -/
theorem AddParameterFlags_duplicate_counterexample :
    AddParameterFlags []
        [{ name := "limit", In := "query",
           schema := some { type_ := "string", default := some (.vStr "a") } },
         { name := "limit", In := "query",
           schema := some { type_ := "boolean" } }]
      = .ok [{ name := "limit", kind := .str, default := .defStr "a", description := "" }] ∧
    FlagKind.str ≠ FlagKind.bool := by
  constructor
  · rfl
  · decide

/-- Witness for `AddParameterFlags_preserves_existing`: processing the
later-declared duplicate `limit` parameter leaves the flag registered
by the first-declared one untouched. -/
theorem AddParameterFlags_preserves_existing_witness :
    lookupFlag [{ name := "limit", kind := .str, default := .defStr "a", description := "" }]
      "limit" = some { name := "limit", kind := .str, default := .defStr "a", description := "" } :=
  AddParameterFlags_preserves_existing
    [{ name := "limit", In := "query", schema := some { type_ := "boolean" } }]
    [{ name := "limit", kind := .str, default := .defStr "a", description := "" }]
    [{ name := "limit", kind := .str, default := .defStr "a", description := "" }]
    "limit"
    { name := "limit", kind := .str, default := .defStr "a", description := "" }
    rfl rfl

/-- C4 (amended): for a new non-path parameter, `AddParameterFlags`
registers exactly one flag named after it; its kind and default follow
`specFlagKind`/`specFlagDefault` — for a query parameter the kind
follows the schema type and the default honours `schema.default` only
in the string case (rendered via `%v`), the integer/number case (only
for a `float64` default, truncated) and the boolean case (only for a
`bool` default), while an array flag's default is always empty; a
header or cookie parameter always gets a string flag with empty
default, whatever its schema says — and the flag is marked required
exactly when the parameter is. -/
theorem AddParameterFlags_flag_shape (fs : FlagSet) (param : Parameter)
    (hnew : lookupFlag fs param.name = none)
    (hloc : param.In = "query" ∨ param.In = "header" ∨ param.In = "cookie") :
    ∃ fs', AddParameterFlags fs [param] = .ok fs' ∧
      lookupFlag fs' param.name =
        some ⟨param.name, specFlagKind param.In param.schema,
          specFlagDefault param.In param.schema, param.description, param.required⟩ := by
  have hdup : ¬ (lookupFlag fs param.name).isSome := by
    simp [hnew]
  have hself : ∀ g : Flag, g.name = param.name →
      lookupFlag (List.append fs [g]) param.name = some g := by
    intro g hg
    rw [← hg] at hnew ⊢
    exact lookupFlag_append_self fs g hnew
  have hfinish : ∀ g : Flag, g.name = param.name → g.required = false →
      lookupFlag (if param.required then
          markFlagRequired (List.append fs [g]) param.name
        else List.append fs [g]) param.name
        = some { g with required := param.required } := by
    intro g hg hr
    by_cases hreq : param.required
    · rw [if_pos hreq, lookupFlag_markFlagRequired_self, hself g hg]
      simp [hreq]
    · rw [if_neg hreq, hself g hg]
      have : ({ g with required := param.required } : Flag) = g := by
        cases g
        simp_all
      rw [this]
  rcases hloc with h | h | h
  · -- query
    refine ⟨if param.required then
        markFlagRequired (addQueryParameterFlag fs param) param.name
      else addQueryParameterFlag fs param, ?_, ?_⟩
    · simp only [AddParameterFlags, if_neg hdup, h]
    · rw [h, addQueryParameterFlag_spec]
      exact hfinish
        ⟨param.name, specFlagKind "query" param.schema,
          specFlagDefault "query" param.schema, param.description, false⟩ rfl rfl
  · -- header
    refine ⟨if param.required then
        markFlagRequired (addHeaderParameterFlag fs param) param.name
      else addHeaderParameterFlag fs param, ?_, ?_⟩
    · simp only [AddParameterFlags, if_neg hdup, h]
    · rw [h]
      exact hfinish
        ⟨param.name, .str, .defStr "", param.description, false⟩ rfl rfl
  · -- cookie
    refine ⟨if param.required then
        markFlagRequired (addCookieParameterFlag fs param) param.name
      else addCookieParameterFlag fs param, ?_, ?_⟩
    · simp only [AddParameterFlags, if_neg hdup, h]
    · rw [h]
      exact hfinish
        ⟨param.name, .str, .defStr "", param.description, false⟩ rfl rfl

end OnTap

namespace OnTap

/-- C4 counterexample: a **header** parameter whose schema type is
`boolean` (with default `true`) gets a plain string flag with an empty
default — not the bool flag with default `true` the claim prescribes
for every non-path parameter. -/
theorem AddParameterFlags_header_counterexample :
    AddParameterFlags []
        [{ name := "flagged", In := "header",
           schema := some { type_ := "boolean", default := some (.vBool true) } }]
      = .ok [{ name := "flagged", kind := .str, default := .defStr "", description := "" }] ∧
    FlagKind.str ≠ FlagKind.bool ∧
    FlagDefault.defStr "" ≠ .defBool true := by
  refine ⟨rfl, by decide, by decide⟩

/-- Witness for `AddParameterFlags_flag_shape`: a query parameter typed
`integer` with the `float64` default `10` yields an integer flag with
default `10`. -/
theorem AddParameterFlags_flag_shape_witness :
    ∃ fs', AddParameterFlags []
        [{ name := "limit", In := "query", required := true,
           schema := some { type_ := "integer", default := some (.vFloat 10) } }]
      = .ok fs' ∧
      lookupFlag fs' "limit" =
        some ⟨"limit",
          specFlagKind "query" (some { type_ := "integer", default := some (.vFloat 10) }),
          specFlagDefault "query" (some { type_ := "integer", default := some (.vFloat 10) }),
          "", true⟩ :=
  AddParameterFlags_flag_shape []
    { name := "limit", In := "query", required := true,
      schema := some { type_ := "integer", default := some (.vFloat 10) } }
    rfl (Or.inl rfl)

end OnTap

namespace OnTap

/-- Go `strings.SplitN(_, sep, 2)` on a string containing `sep` splits at
the first occurrence: the part before it and everything after it. -/
theorem goSplitN2Char_of_contains (sep : Char) :
    ∀ l : List Char, goContainsAux [sep] l = true →
      goSplitN2Char sep l =
        some (l.takeWhile (fun c => c ≠ sep), (l.dropWhile (fun c => c ≠ sep)).tail)
  | [], h => by simp [goContainsAux] at h
  | c :: rest, h => by
    by_cases hc : c = sep
    · subst hc
      simp [goSplitN2Char, List.takeWhile_cons, List.dropWhile_cons]
    · have hrest : goContainsAux [sep] rest = true := by
        simp only [goContainsAux, List.isPrefixOf, Bool.and_true, Bool.or_eq_true,
          beq_iff_eq] at h
        rcases h with h | h
        · exact absurd h.symm hc
        · exact h
      simp [goSplitN2Char, hc, goSplitN2Char_of_contains sep rest hrest,
        List.takeWhile_cons, List.dropWhile_cons]

/-- C5: for a non-empty auth string, `Client.addAuth` interprets a
string containing `:` as basic-auth credentials split at the first
colon (username before it, password after it); otherwise a string
prefixed `Bearer ` or `Basic ` becomes the verbatim `Authorization`
header value; any other bare string is sent as an API key in the
`X-API-Key` header. -/
theorem addAuth_modes (auth : String) (_hne : auth ≠ "") :
    (goContains auth ":" = true →
      addAuth auth =
        .basicAuth ⟨auth.data.takeWhile (fun c => c ≠ ':')⟩
          ⟨(auth.data.dropWhile (fun c => c ≠ ':')).tail⟩) ∧
    (goContains auth ":" = false →
      (goHasPrefix auth "Bearer " = true ∨ goHasPrefix auth "Basic " = true) →
      addAuth auth = .authHeader auth) ∧
    (goContains auth ":" = false → goHasPrefix auth "Bearer " = false →
      goHasPrefix auth "Basic " = false → addAuth auth = .apiKeyHeader auth) := by
  refine ⟨?_, ?_, ?_⟩
  · intro h
    unfold addAuth
    rw [if_pos h, goSplitN2Char_of_contains ':' auth.data h]
  · intro h hp
    unfold addAuth
    rw [if_neg (by simp [h])]
    by_cases hb : goHasPrefix auth "Bearer " = true
    · rw [if_pos hb]
    · rcases hp with hp | hp
      · exact absurd hp hb
      · rw [if_neg hb, if_pos hp]
  · intro h h1 h2
    unfold addAuth
    rw [if_neg (by simp [h]), if_neg (by simp [h1]), if_neg (by simp [h2])]

/-- Witness for `addAuth_modes`: `user:pass` becomes basic auth with
username `user` and password `pass`. -/
theorem addAuth_modes_witness :
    addAuth "user:pass" = .basicAuth "user" "pass" := by
  have h := (addAuth_modes "user:pass" (by decide)).1 (by decide)
  exact h.trans (by decide)

end OnTap

namespace OnTap

/-- C10 (amended): when `DryRun` is set, the URL and body construction
both succeed, and the request's method (an empty method defaults to
`GET`) is a valid HTTP method token — so that `http.NewRequest` cannot
fail — `Client.Execute` returns no error and exactly the dummy
response — status code 0, nil headers, nil body, carrying the original
request — and never touches the transport, regardless of path or any
other field. -/
theorem clientExecute_dryRun_dummy
    (urlResolver : String → String → List (String × List String) → Except String String)
    (fileReader : String → Except String String)
    (transport : HttpRequest → Except String TransportResponse)
    (c : Client) (req : Request) (reqURL : String) (bodyPair : ReqBody × String)
    (hdry : req.DryRun = true)
    (hurl : urlResolver c.BaseURL req.Path req.QueryParams = .ok reqURL)
    (hbody : resolveRequestBody fileReader req = .ok bodyPair)
    (hmethod : validMethod (if req.Method = "" then "GET" else req.Method) = true) :
    ClientExecute urlResolver fileReader transport c req =
      ⟨.ok { StatusCode := 0, Headers := none, Body := none, Request := req }, none⟩ := by
  unfold ClientExecute
  rw [hurl, hbody]
  obtain ⟨body, contentType⟩ := bodyPair
  simp [hdry, hmethod]

/-- Witness for `clientExecute_dryRun_dummy` at a concrete dry-run
request. -/
theorem clientExecute_dryRun_dummy_witness :
    ClientExecute (fun _ p _ => .ok p) (fun _ => .error "fs") (fun _ => .error "net")
        (NewClient "http://api" "")
        { Method := "GET", Path := "/pets", QueryParams := [], Headers := [],
          Body := none, DryRun := true } =
      ⟨.ok { StatusCode := 0, Headers := none, Body := none,
             Request := { Method := "GET", Path := "/pets", QueryParams := [], Headers := [],
                          Body := none, DryRun := true } }, none⟩ :=
  clientExecute_dryRun_dummy _ _ _ _ _ "/pets" (.empty, "") rfl rfl rfl (by decide)

/-- Any outcome of `Client.Execute` on a dry-run request has no
transport invocation, and a successful result is exactly the dummy
response. -/
theorem clientExecute_dryRun_outcome
    (urlResolver : String → String → List (String × List String) → Except String String)
    (fileReader : String → Except String String)
    (transport : HttpRequest → Except String TransportResponse)
    (c : Client) (req : Request) :
    ∀ res targ, ClientExecute urlResolver fileReader transport c req = ⟨res, targ⟩ →
      req.DryRun = true →
      targ = none ∧ ∀ resp, res = .ok resp →
        resp = { StatusCode := 0, Headers := none, Body := none, Request := req } := by
  intro res targ hE hdry
  unfold ClientExecute at hE
  rcases hurl : urlResolver c.BaseURL req.Path req.QueryParams with e | reqURL <;>
    rw [hurl] at hE
  · cases hE
    exact ⟨rfl, fun resp h => by cases h⟩
  · rcases hbody : resolveRequestBody fileReader req with e | p <;> rw [hbody] at hE
    · cases hE
      exact ⟨rfl, fun resp h => by cases h⟩
    · obtain ⟨body, contentType⟩ := p
      by_cases hm : validMethod (if req.Method = "" then "GET" else req.Method) = true
      · simp only [hm, not_true, if_neg, if_false, hdry, if_true] at hE
        cases hE
        exact ⟨rfl, fun resp h => by cases h; rfl⟩
      · simp only [hm, not_false_iff, if_pos] at hE
        cases hE
        exact ⟨rfl, fun resp h => by cases h⟩

end OnTap

namespace OnTap

/-- Dispatch step shared by the dry-run claims: whatever follows the
`Client.Execute` call, a dry-run request leads to no transport call
and (on success) to the dry-run completion result. -/
theorem invocation_dispatch_dryRun
    (urlResolver : String → String → List (String × List String) → Except String String)
    (fileReader : String → Except String String)
    (transport : HttpRequest → Except String TransportResponse)
    (client : Client) (req : Request) (d : Bool) (emsg : String → String)
    (rest : Response → Option HttpRequest → InvocationOutcome)
    (hdry : req.DryRun = true) (hd : d = true) :
    ((match ClientExecute urlResolver fileReader transport client req with
      | ⟨.error e, targ⟩ => (⟨.error (emsg e), targ⟩ : InvocationOutcome)
      | ⟨.ok resp, targ⟩ =>
        if d = true then ⟨.ok .dryRunCompleted, targ⟩
        else rest resp targ) : InvocationOutcome).transportArg = none ∧
    ∀ r, ((match ClientExecute urlResolver fileReader transport client req with
      | ⟨.error e, targ⟩ => (⟨.error (emsg e), targ⟩ : InvocationOutcome)
      | ⟨.ok resp, targ⟩ =>
        if d = true then ⟨.ok .dryRunCompleted, targ⟩
        else rest resp targ) : InvocationOutcome).result = .ok r →
      r = .dryRunCompleted := by
  rcases hE : ClientExecute urlResolver fileReader transport client req with ⟨res, targ⟩
  have hout := clientExecute_dryRun_outcome urlResolver fileReader transport client req
    res targ hE hdry
  rcases res with e | resp
  · exact ⟨hout.1, fun r h => by cases h⟩
  · simp only [hd, if_pos]
    exact ⟨hout.1, fun r h => by cases h; rfl⟩

/-- C6: a leaf-command invocation with the dry-run flag set never
invokes the HTTP transport, and whenever it finishes without error it
reports the dry-run completion message and produces no response
body/data. -/
theorem executeEndpoint_dryRun
    (urlResolver : String → String → List (String × List String) → Except String String)
    (fileReader : String → Except String String)
    (transport : HttpRequest → Except String TransportResponse)
    (jsonDecode : String → Option GoVal)
    (inputs : InvocationInputs) (endpoint : Endpoint) (apiConfig : APIConfig)
    (args : List String) (hdry : inputs.dryRun = true) :
    (executeEndpoint urlResolver fileReader transport jsonDecode inputs endpoint
        apiConfig args).transportArg = none ∧
    ∀ r, (executeEndpoint urlResolver fileReader transport jsonDecode inputs endpoint
        apiConfig args).result = .ok r → r = .dryRunCompleted := by
  unfold executeEndpoint
  rcases h1 : ParseHeaderFlags inputs.headerStrs with e | headers
  · exact ⟨rfl, fun r h => by cases h⟩
  rcases h2 : ParseQueryFlags inputs.queryStrs with e | queryOverrides
  · exact ⟨rfl, fun r h => by cases h⟩
  rcases h3 : ParseFormFlags inputs.formStrs with e | pforms
  · exact ⟨rfl, fun r h => by cases h⟩
  obtain ⟨formData, formFiles⟩ := pforms
  exact invocation_dispatch_dryRun urlResolver fileReader transport _ _ _ _ _ hdry hdry

end OnTap

namespace OnTap

/-- Membership in a Go-map insert, for accumulators whose entries agree
with `extractField` (duplicate keys then always overwrite with the same
value). -/
theorem mem_goObjSet (acc : List (String × GoVal)) (data : GoVal) (f : String) (v : GoVal)
    (hcons : ∀ p ∈ acc, extractField data p.1 = .ok p.2)
    (hv : extractField data f = .ok v) :
    ∀ g w, ((g, w) ∈ goObjSet acc f v ↔ ((g, w) ∈ acc ∨ (g = f ∧ w = v))) := by
  intro g w
  unfold goObjSet
  by_cases hany : acc.any (fun p => p.1 = f)
  · rw [if_pos hany]
    constructor
    · intro hmem
      rcases List.mem_map.mp hmem with ⟨p, hp, hfp⟩
      by_cases hpf : p.1 = f
      · rw [if_pos hpf] at hfp
        exact Or.inr ⟨congrArg Prod.fst hfp.symm, congrArg Prod.snd hfp.symm⟩
      · rw [if_neg hpf] at hfp
        exact Or.inl (hfp ▸ hp)
    · intro hmem
      rcases hmem with hmem | ⟨hg, hw⟩
      · refine List.mem_map.mpr ⟨(g, w), hmem, ?_⟩
        by_cases hgf : g = f
        · have h1 := hcons (g, w) hmem
          rw [hgf] at h1
          have hw : w = v := Except.ok.inj (h1.symm.trans hv)
          simp [hgf, hw]
        · simp [hgf]
      · rcases List.any_eq_true.mp hany with ⟨p, hp, hpf⟩
        refine List.mem_map.mpr ⟨p, hp, ?_⟩
        rw [if_pos (by simpa using hpf), hg, hw]
  · rw [if_neg hany]
    constructor
    · intro hmem
      rcases List.mem_append.mp hmem with hmem | hmem
      · exact Or.inl hmem
      · have h := List.mem_singleton.mp hmem
        exact Or.inr ⟨congrArg Prod.fst h, congrArg Prod.snd h⟩
    · intro hmem
      rcases hmem with hmem | ⟨hg, hw⟩
      · exact List.mem_append.mpr (Or.inl hmem)
      · refine List.mem_append.mpr (Or.inr ?_)
        rw [hg, hw]
        exact List.mem_singleton.mpr rfl

end OnTap

namespace OnTap

/-- The per-field collection loop of `ExtractFields`: an entry is in the
final map iff it was already collected or its field extracts to exactly
that value. -/
theorem extractFold_mem (data : GoVal) :
    ∀ (fields : List String) (acc : List (String × GoVal)),
      (∀ p ∈ acc, extractField data p.1 = .ok p.2) →
      ∀ g w,
        ((g, w) ∈ fields.foldl (fun acc field =>
            match extractField data field with
            | .ok value => goObjSet acc field value
            | .error _ => acc) acc
          ↔ ((g, w) ∈ acc ∨ (g ∈ fields ∧ extractField data g = .ok w)))
  | [], acc, hcons, g, w => by
    simp
  | field :: rest, acc, hcons, g, w => by
    rw [List.foldl_cons]
    rcases hf : extractField data field with e | value
    · rw [extractFold_mem data rest acc hcons g w]
      constructor
      · rintro (h | ⟨h1, h2⟩)
        · exact Or.inl h
        · exact Or.inr ⟨List.mem_cons_of_mem _ h1, h2⟩
      · rintro (h | ⟨h1, h2⟩)
        · exact Or.inl h
        · rcases List.mem_cons.mp h1 with h1 | h1
          · rw [h1] at h2
            rw [h2] at hf
            cases hf
          · exact Or.inr ⟨h1, h2⟩
    · have hcons' : ∀ p ∈ goObjSet acc field value, extractField data p.1 = .ok p.2 := by
        intro p hp
        have := (mem_goObjSet acc data field value hcons hf p.1 p.2).mp hp
        rcases this with h | ⟨h1, h2⟩
        · exact hcons p h
        · rw [h1, h2]
          exact hf
      rw [extractFold_mem data rest (goObjSet acc field value) hcons' g w,
        mem_goObjSet acc data field value hcons hf g w]
      constructor
      · rintro ((h | ⟨h1, h2⟩) | ⟨h1, h2⟩)
        · exact Or.inl h
        · rw [h1, h2]
          exact Or.inr ⟨List.mem_cons_self _ _, hf⟩
        · exact Or.inr ⟨List.mem_cons_of_mem _ h1, h2⟩
      · rintro (h | ⟨h1, h2⟩)
        · exact Or.inl (Or.inl h)
        · rcases List.mem_cons.mp h1 with h1 | h1
          · rw [h1] at h2
            have hw : w = value := Except.ok.inj (h2.symm.trans hf)
            exact Or.inl (Or.inr ⟨h1, hw⟩)
          · exact Or.inr ⟨h1, h2⟩

/-- C8: on a non-empty extraction field list, `ExtractFields` always
succeeds and returns a mapping keyed by field path that contains
exactly the fields whose dot-path traversal succeeded, each mapped to
its extracted value; a field whose traversal fails at any step is
simply absent. -/
theorem ExtractFields_collects (data : GoVal) (fields : List String) (hne : fields ≠ []) :
    ∃ m, ExtractFields data fields = .ok (.vObj m) ∧
      ∀ f v, ((f, v) ∈ m ↔ (f ∈ fields ∧ extractField data f = .ok v)) := by
  have hemp : fields.isEmpty = false := by
    cases fields
    · exact absurd rfl hne
    · rfl
  refine ⟨fields.foldl (fun acc field =>
      match extractField data field with
      | .ok value => goObjSet acc field value
      | .error _ => acc) [], ?_, ?_⟩
  · unfold ExtractFields
    rw [hemp]
    rfl
  · intro f v
    have := extractFold_mem data fields [] (by intro p hp; cases hp) f v
    rw [this]
    simp

/-- Witness for `ExtractFields_collects`: the spec's own scenario — the
response `\x7b"items": [\x7b"name": "a"\x7d]\x7d` with extraction field
`items.name`, where the step `name` hits a sequence without `[]`. -/
theorem ExtractFields_collects_witness :
    (["items.name"] : List String) ≠ [] ∧
    ∃ m, ExtractFields (.vObj [("items", .vList [.vObj [("name", .vStr "a")]])])
        ["items.name"] = .ok (.vObj m) ∧
      ∀ f v, ((f, v) ∈ m ↔
        (f ∈ ["items.name"] ∧
          extractField (.vObj [("items", .vList [.vObj [("name", .vStr "a")]])]) f
            = .ok v)) :=
  ⟨by decide,
    ExtractFields_collects (.vObj [("items", .vList [.vObj [("name", .vStr "a")]])])
      ["items.name"] (by decide)⟩

/-- The spec's extraction scenario evaluates to an omission: the result
for `--extract items.name` on `\x7b"items": [\x7b"name": "a"\x7d]\x7d`
is the empty mapping, not an error. -/
theorem extractFields_items_omission :
    ExtractFields (.vObj [("items", .vList [.vObj [("name", .vStr "a")]])]) ["items.name"]
      = .ok (.vObj []) := rfl

end OnTap

namespace OnTap

/-- A `find?` under the keyed substitution used by the upsert pattern is
unchanged for a different key. -/
theorem subst_map_find?_ne {α : Type} (k k' : String) (v : String × α) (hne : k' ≠ k)
    (hv : v.1 = k) :
    ∀ l : List (String × α),
      (l.map (fun p => if p.1 = k then v else p)).find? (fun p => p.1 = k') =
        l.find? (fun p => p.1 = k')
  | [] => rfl
  | p :: rest => by
    simp only [List.map_cons]
    by_cases hp : p.1 = k
    · rw [if_pos hp]
      rw [List.find?_cons_of_neg _ (by simp [hv, Ne.symm hne]),
        List.find?_cons_of_neg _ (by simp [hp, Ne.symm hne])]
      exact subst_map_find?_ne k k' v hne hv rest
    · rw [if_neg hp]
      by_cases hpk : p.1 = k'
      · rw [List.find?_cons_of_pos _ (by simp [hpk]), List.find?_cons_of_pos _ (by simp [hpk])]
      · rw [List.find?_cons_of_neg _ (by simp [hpk]), List.find?_cons_of_neg _ (by simp [hpk])]
        exact subst_map_find?_ne k k' v hne hv rest

/-- A `find?` past an appended entry with a different key. -/
theorem append_single_find?_ne {α : Type} (k k' : String) (v : String × α) (hne : k' ≠ k)
    (hv : v.1 = k) (l : List (String × α)) :
    (List.append l [v]).find? (fun p => p.1 = k') = l.find? (fun p => p.1 = k') := by
  have : (l ++ [v]).find? (fun p => decide (p.1 = k')) = l.find? (fun p => decide (p.1 = k')) := by
    rw [List.find?_append]
    have hnone : [v].find? (fun p => decide (p.1 = k')) = none := by
      rw [List.find?_cons_of_neg _ (by simp [hv, Ne.symm hne])]
      rfl
    rw [hnone]
    cases l.find? (fun p => decide (p.1 = k')) <;> rfl
  exact this

/-- The upsert pattern (`storeSet`/`mapSet`) finds the fresh value under
its own key ... -/
theorem upsert_find?_self {α : Type} :
    ∀ (l : List (String × α)) (k : String) (v : α),
      (if l.any (fun p => p.1 = k) then
          l.map (fun p => if p.1 = k then (k, v) else p)
        else List.append l [(k, v)]).find? (fun p => p.1 = k) = some (k, v)
  | [], k, v => by simp
  | p :: rest, k, v => by
    have hs := upsert_find?_self rest k v
    by_cases hp : p.1 = k
    · rw [if_pos (by simp [List.any_cons, hp])]
      simp only [List.map_cons]
      rw [if_pos hp]
      exact List.find?_cons_of_pos _ (by simp)
    · by_cases hrest : rest.any (fun p => p.1 = k)
      · rw [if_pos (by simp [List.any_cons, hrest])]
        simp only [List.map_cons]
        rw [if_neg hp, List.find?_cons_of_neg _ (by simp [hp])]
        rw [if_pos hrest] at hs
        exact hs
      · rw [if_neg (by simp [List.any_cons, hp, hrest])]
        rw [show List.append (p :: rest) [(k, v)] = p :: List.append rest [(k, v)] from rfl]
        rw [List.find?_cons_of_neg _ (by simp [hp])]
        rw [if_neg (by simpa using hrest)] at hs
        exact hs

/-- The upsert pattern also leaves every other key's entry untouched. -/
theorem upsert_find?_ne {α : Type} (l : List (String × α)) (k k' : String) (v : α)
    (hne : k' ≠ k) :
    (if l.any (fun p => p.1 = k) then
        l.map (fun p => if p.1 = k then (k, v) else p)
      else List.append l [(k, v)]).find? (fun p => p.1 = k') =
      l.find? (fun p => p.1 = k') := by
  by_cases hany : l.any (fun p => p.1 = k)
  · rw [if_pos hany]
    exact subst_map_find?_ne k k' (k, v) hne rfl l
  · rw [if_neg hany]
    exact append_single_find?_ne k k' (k, v) hne rfl l

/-- A `Store.Set` makes its entry visible under its own key. -/
theorem storeLookup_storeSet_self {δ : Type} (s : CacheStore δ) (key : String) (spec : δ)
    (ttl now : Nat) :
    storeLookup (storeSet s key spec ttl now) key
      = some ⟨spec, now, now + ttl⟩ := by
  unfold storeLookup storeSet
  rw [upsert_find?_self]
  rfl

/-- A `Store.Set` leaves lookups under any other key unchanged. -/
theorem storeLookup_storeSet_ne {δ : Type} (s : CacheStore δ) (key k' : String) (spec : δ)
    (ttl now : Nat) (hne : k' ≠ key) :
    storeLookup (storeSet s key spec ttl now) k' = storeLookup s k' := by
  unfold storeLookup storeSet
  rw [upsert_find?_ne _ _ _ _ hne]

/-- When the manager's sha256 key has no entry, `GetSpec` does not serve
from the cache. -/
theorem GetSpec_fromCache_false_of_miss {δ : Type} (sha256Bytes : String → List Nat)
    (loadSpec : String → Except String δ) (now : Nat) (s : CacheStore δ) (p : String)
    (ttl : Nat)
    (hmiss : storeLookup s (managerGenerateCacheKey sha256Bytes p) = none) :
    (GetSpec sha256Bytes loadSpec now s p ttl).fromCache = false := by
  simp only [GetSpec, storeGet, hmiss]
  rcases h : loadSpec p with e | spec <;> simp [getSpecLoadArm, h]

end OnTap

namespace OnTap

/-- C9: for a spec path `p` that is not its own sha256 hex digest, the
fallback write of `loadOpenAPISpec` stores the freshly parsed document
under the key `p` (`cmd/dynamic.go`'s `generateCacheKey`), while the
cache manager's `GetSpec` looks up `hex(sha256(p))`
(`manager.go`'s `generateCacheKey`); the fallback-cached entry is
therefore invisible to every later `GetSpec(p)`, which misses the cache
and reloads from the source — the two key derivations never meet. -/
theorem loadOpenAPISpec_fallback_key_mismatch {δ : Type}
    (sha256Bytes : String → List Nat)
    (getSpecLoad directParse laterLoad : String → Except String δ)
    (s : CacheStore δ) (p : String) (doc : δ) (em : String) (ttl now ttl2 now2 : Nat)
    (hkey : p ≠ managerGenerateCacheKey sha256Bytes p)
    (hmiss : storeLookup s (managerGenerateCacheKey sha256Bytes p) = none)
    (hfail : getSpecLoad p = .error em)
    (hparse : directParse p = .ok doc) :
    storeLookup (loadOpenAPISpec sha256Bytes getSpecLoad directParse now false s p ttl).store
        (dynamicGenerateCacheKey p) = some ⟨doc, now, now + ttl⟩ ∧
    storeLookup (loadOpenAPISpec sha256Bytes getSpecLoad directParse now false s p ttl).store
        (managerGenerateCacheKey sha256Bytes p) = none ∧
    (GetSpec sha256Bytes laterLoad now2
        (loadOpenAPISpec sha256Bytes getSpecLoad directParse now false s p ttl).store
        p ttl2).fromCache = false := by
  have hstore : (loadOpenAPISpec sha256Bytes getSpecLoad directParse now false s p ttl).store
      = storeSet s (dynamicGenerateCacheKey p) doc ttl now := by
    simp [loadOpenAPISpec, GetSpec, storeGet, getSpecLoadArm, hmiss, hfail, hparse]
  have h2 : storeLookup
      (loadOpenAPISpec sha256Bytes getSpecLoad directParse now false s p ttl).store
      (managerGenerateCacheKey sha256Bytes p) = none := by
    rw [hstore, storeLookup_storeSet_ne s (dynamicGenerateCacheKey p)
      (managerGenerateCacheKey sha256Bytes p) doc ttl now (fun h => hkey h.symm)]
    exact hmiss
  refine ⟨?_, h2, ?_⟩
  · rw [hstore]
    exact storeLookup_storeSet_self _ _ _ _ _
  · exact GetSpec_fromCache_false_of_miss sha256Bytes laterLoad now2 _ p ttl2 h2

/-- Witness for `loadOpenAPISpec_fallback_key_mismatch` with a concrete
hash oracle (32 zero bytes, so the manager key is 64 `0` characters)
and the path `spec.yaml`. -/
theorem loadOpenAPISpec_fallback_key_mismatch_witness :
    ("spec.yaml" ≠ managerGenerateCacheKey (fun _ => List.replicate 32 0) "spec.yaml") ∧
    (storeLookup (loadOpenAPISpec (δ := Nat) (fun _ => List.replicate 32 0)
          (fun _ => .error "boom") (fun _ => .ok 7) 3 false [] "spec.yaml" 5).store
        (dynamicGenerateCacheKey "spec.yaml") = some ⟨7, 3, 3 + 5⟩ ∧
      storeLookup (loadOpenAPISpec (δ := Nat) (fun _ => List.replicate 32 0)
          (fun _ => .error "boom") (fun _ => .ok 7) 3 false [] "spec.yaml" 5).store
        (managerGenerateCacheKey (fun _ => List.replicate 32 0) "spec.yaml") = none ∧
      (GetSpec (fun _ => List.replicate 32 0) (fun _ => .error "later") 9
          (loadOpenAPISpec (δ := Nat) (fun _ => List.replicate 32 0)
            (fun _ => .error "boom") (fun _ => .ok 7) 3 false [] "spec.yaml" 5).store
          "spec.yaml" 4).fromCache = false) :=
  ⟨by decide,
    loadOpenAPISpec_fallback_key_mismatch (fun _ => List.replicate 32 0)
      (fun _ => .error "boom") (fun _ => .ok 7) (fun _ => .error "later")
      [] "spec.yaml" 7 "boom" 5 3 4 9 (by decide) rfl rfl rfl⟩

end OnTap

namespace OnTap

/-- Witness for `executeEndpoint_dryRun` at a concrete dry-run
invocation. -/
theorem executeEndpoint_dryRun_witness :
    (executeEndpoint (fun _ p _ => .ok p) (fun _ => .error "fs") (fun _ => .error "net")
        (fun _ => none) { dryRun := true } { path := "/pets", method := "GET" } {}
        []).transportArg = none :=
  (executeEndpoint_dryRun (fun _ p _ => .ok p) (fun _ => .error "fs") (fun _ => .error "net")
    (fun _ => none) { dryRun := true } { path := "/pets", method := "GET" } {} [] rfl).1

/-- C2: evaluating the invocation pipeline at the failing input — a
`--data` body of `\x7b"a": 1\x7d` and **no** `--form` flags — shows the
transport receives an **empty multipart form body**, not the JSON body:
`ParseFormFlags` always returns allocated (non-nil) maps, so
`Client.Execute`'s `FormData != nil` test fires even with zero form
fields, and the parsed `--data` value assigned to `req.Body` is
silently discarded. -/
theorem executeEndpoint_dataFlag_dead_bug :
    (executeEndpoint (fun _ p _ => .ok p) (fun _ => .error "fs")
        (fun _ => .ok { StatusCode := 200, Headers := [], Body := "" }) (fun _ => none)
        { data := some (.vObj [("a", .vFloat 1)]) }
        { path := "/pets", method := "POST" } {} []).transportArg =
      some { Method := "POST", URL := "/pets",
             Header := [("User-Agent", "OnTap CLI"), ("Content-Type", "multipart/form-data")],
             body := .multipartBody [] [] } ∧
    ReqBody.multipartBody [] [] ≠ .jsonBody (.vObj [("a", .vFloat 1)]) :=
  ⟨rfl, fun h => ReqBody.noConfusion h⟩

end OnTap

namespace OnTap

/-- C10 counterexample: a dry-run request whose method `"A B"` is not a
valid HTTP method token, with URL resolution and body construction both
succeeding, makes `Client.Execute` return the `http.NewRequest` error
`failed to create request: net/http: invalid method "A B"` — not the
nil-error dummy response the claim promises regardless of method. -/
theorem clientExecute_invalid_method_counterexample :
    ({ Method := "A B", Path := "/pets", QueryParams := [], Headers := [],
       Body := none, DryRun := true } : Request).DryRun = true ∧
    ((fun _ p _ => .ok p) : String → String → List (String × List String) →
        Except String String) "http://api" "/pets" [] = .ok "/pets" ∧
    resolveRequestBody (fun _ => .error "fs")
      { Method := "A B", Path := "/pets", QueryParams := [], Headers := [],
        Body := none, DryRun := true } = .ok (.empty, "") ∧
    (ClientExecute (fun _ p _ => .ok p) (fun _ => .error "fs") (fun _ => .error "net")
        (NewClient "http://api" "")
        { Method := "A B", Path := "/pets", QueryParams := [], Headers := [],
          Body := none, DryRun := true }).result
      = .error "failed to create request: net/http: invalid method \"A B\"" ∧
    (ClientExecute (fun _ p _ => .ok p) (fun _ => .error "fs") (fun _ => .error "net")
        (NewClient "http://api" "")
        { Method := "A B", Path := "/pets", QueryParams := [], Headers := [],
          Body := none, DryRun := true }).result
      ≠ .ok { StatusCode := 0, Headers := none, Body := none,
              Request := { Method := "A B", Path := "/pets", QueryParams := [],
                           Headers := [], Body := none, DryRun := true } } :=
  ⟨rfl, rfl, rfl, rfl, fun h => Except.noConfusion h⟩

end OnTap
